import Mathlib

/-!
Verification of the Apify token-manager core of the Subnet-111 miner
repository (`node/modules/apify/token-manager.js` and the gateway
`runActorAndGetResults` that consumes it).

The JavaScript is embedded shallowly:

* Monetary amounts (USD credits) are modelled as exact rationals `ℚ`.
* The network is an explicit environment `Env` mapping a token to the
  outcome of the two account-status reads (`/users/me` and
  `/users/me/usage/monthly`); a probe of a token is the pure function
  `getTokenCredits` over that environment.
* The mutable fields of the `ApifyTokenManager` class instance (plus the
  module-level `currentToken` global) form the state structure
  `ApifyTokenManager`; each method becomes a state-passing function which
  additionally returns the list of tokens it probed over the network, in
  order, so that "performs no probe" claims are statable.
* Thrown JS errors become `Except` results tagged by `ApifyError`.
* Wall-clock bookkeeping (`this.lastCheckTime = Date.now()`) is the one
  piece of instance state not modelled: no claim mentions it and real
  time has no shallow embedding.
-/

namespace Subnet111

/-- Relevant part of the `/users/me` response body:
`data.data.plan.monthlyUsageCreditsUsd`, absent when the field is missing
(the JS applies `|| 0`). -/
structure UserPlan where
  monthlyUsageCreditsUsd : Option ℚ
deriving DecidableEq

/-- Relevant part of the `/users/me/usage/monthly` response body:
`data.data.totalUsageCreditsUsdAfterVolumeDiscount`, absent when missing. -/
structure MonthlyUsage where
  totalUsageCreditsUsdAfterVolumeDiscount : Option ℚ
deriving DecidableEq

/-- Network environment for the two account-status endpoints.  An
`Except.error msg` models any network or authorization failure (timeout,
HTTP error status, invalid token) raised by the corresponding `axios.get`. -/
structure Env where
  userEndpoint : String → Except String UserPlan
  usageEndpoint : String → Except String MonthlyUsage

/-- Credit snapshot returned by `getTokenCredits` for one token. -/
structure CreditInfo where
  token : String
  includedCredits : ℚ
  usedCredits : ℚ
  remainingCredits : ℚ
  isValid : Bool
  error : Option String
deriving DecidableEq

/-- `MIN_CREDITS_THRESHOLD` from `token-manager.js`:
`process.env.TWEET_LIMIT ? (parseInt(TWEET_LIMIT) + 100) * 0.00025 : 0.1`.
The configured limit is `none` when the variable is unset (or falsy). -/
def MIN_CREDITS_THRESHOLD (tweetLimit : Option Int) : ℚ :=
  match tweetLimit with
  | some n => ((n : ℚ) + 100) * 0.00025
  | none => 0.1

/-- `getTokenCredits(token)`: performs the two remote reads; on success
computes `remaining = max(0, included - used)` and returns a valid
snapshot; on failure of either read returns an invalid snapshot carrying
the error message (the `try/catch` in the source never lets the error
escape). -/
def getTokenCredits (env : Env) (token : String) : CreditInfo :=
  match env.userEndpoint token with
  | Except.error msg =>
      { token := token, includedCredits := 0, usedCredits := 0,
        remainingCredits := 0, isValid := false, error := some msg }
  | Except.ok userData =>
      match env.usageEndpoint token with
      | Except.error msg =>
          { token := token, includedCredits := 0, usedCredits := 0,
            remainingCredits := 0, isValid := false, error := some msg }
      | Except.ok usageData =>
          let includedCredits := userData.monthlyUsageCreditsUsd.getD 0
          let usedCredits :=
            usageData.totalUsageCreditsUsdAfterVolumeDiscount.getD 0
          let remainingCredits := max 0 (includedCredits - usedCredits)
          { token := token, includedCredits := includedCredits,
            usedCredits := usedCredits,
            remainingCredits := remainingCredits,
            isValid := true, error := none }

/-- Error taxonomy of the core (JS throws plain `Error`s; these
constructors record which `throw` site produced the message). -/
inductive ApifyError where
  | configError (msg : String)
  | noCredentialAvailable (msg : String)
  | actorFailed (msg : String)
  | retryExhausted (msg : String)
deriving DecidableEq

/-- State of one `ApifyTokenManager` instance, together with the
module-level `currentToken` global (`globalCurrentToken`). The JS `Map`
of snapshots and `Set` of failed tokens are association/plain lists with
replace/insert operations preserving their key semantics. -/
structure ApifyTokenManager where
  tokens : List String
  tokenCredits : List (String × CreditInfo)
  currentToken : Option String
  currentTokenIndex : Nat
  failedTokens : List String
  globalCurrentToken : Option String
deriving DecidableEq

/-- Input to the constructor: a string, an array, or a value of any other
type (`typeof tokens` dispatch). -/
inductive TokenSource where
  | ofString (s : String)
  | ofList (l : List String)
  | otherType
deriving DecidableEq

/-- JS `String.prototype.trim` (over the common ASCII whitespace),
implemented on the character list so that it is kernel-computable. -/
def isJsWhitespace (c : Char) : Bool :=
  c = ' ' || c = '\t' || c = '\n' || c = '\r'

/-- `t.trim()` on a token. -/
def jsTrim (s : String) : String :=
  String.mk (((s.toList.dropWhile isJsWhitespace).reverse.dropWhile
    isJsWhitespace).reverse)

/-- Character-wise splitting on every comma, the semantics of JS
`tokens.split(',')`; the accumulator holds the current piece reversed. -/
def splitCommaAux : List Char → List Char → List String
  | [], acc => [String.mk acc.reverse]
  | c :: rest, acc =>
      if c = ',' then String.mk acc.reverse :: splitCommaAux rest []
      else splitCommaAux rest (c :: acc)

/-- `tokens.split(',')`. -/
def splitComma (s : String) : List String :=
  splitCommaAux s.toList []

/-- `tokens.split(',').map(t => t.trim()).filter(t => t)` — the string
branch of the constructor (an empty string is the only falsy value the
filter can meet). -/
def parseTokens (s : String) : List String :=
  ((splitComma s).map (fun t => jsTrim t)).filter (fun t => t ≠ "")

/-- The constructor body of `ApifyTokenManager`: a comma-separated string
is split, trimmed and filtered of empties; an array is taken as-is; any
other input throws; an empty resulting token list throws. -/
def mkApifyTokenManager (source : TokenSource) :
    Except ApifyError ApifyTokenManager :=
  match source with
  | TokenSource.ofString s =>
      let tokens := parseTokens s
      if tokens.length = 0 then
        Except.error (ApifyError.configError "No valid Apify tokens provided")
      else
        Except.ok
          { tokens := tokens, tokenCredits := [], currentToken := none,
            currentTokenIndex := 0, failedTokens := [],
            globalCurrentToken := none }
  | TokenSource.ofList l =>
      if l.length = 0 then
        Except.error (ApifyError.configError "No valid Apify tokens provided")
      else
        Except.ok
          { tokens := l, tokenCredits := [], currentToken := none,
            currentTokenIndex := 0, failedTokens := [],
            globalCurrentToken := none }
  | TokenSource.otherType =>
      Except.error
        (ApifyError.configError
          "Tokens must be a comma-separated string or array")

/-- `this.tokenCredits.set(token, info)`: replace the entry in place if the
key is present, else append (JS `Map.set` semantics). -/
def setCredit (cache : List (String × CreditInfo)) (token : String)
    (info : CreditInfo) : List (String × CreditInfo) :=
  if cache.any (fun p => p.fst = token) then
    cache.map (fun p => if p.fst = token then (token, info) else p)
  else
    cache ++ [(token, info)]

/-- `this.tokenCredits.get(token)`. -/
def lookupCredit (cache : List (String × CreditInfo)) (token : String) :
    Option CreditInfo :=
  (cache.find? (fun p => p.fst = token)).map Prod.snd

/-- The selection guard
`tokenInfo.isValid && tokenInfo.remainingCredits >= MIN_CREDITS_THRESHOLD`. -/
def qualifies (threshold : ℚ) (info : CreditInfo) : Bool :=
  info.isValid && decide (threshold ≤ info.remainingCredits)

/-- Message of the `throw` at the end of `selectNextToken`. -/
def noTokensMsg : String :=
  "No valid Apify tokens available. All tokens are either invalid or below threshold."

/-- Outcome of the `selectNextToken` scan loop: the updated snapshot
cache and failed set, the tokens probed (in order), and either the adopted
`(index, token)` pair or the terminal error. -/
structure ScanResult where
  credits : List (String × CreditInfo)
  failed : List String
  probes : List String
  outcome : Except ApifyError (Nat × String)

/-- The `for (let i = currentTokenIndex; i < tokens.length; i++)` loop of
`selectNextToken`, with explicit fuel (structural recursion; the fuel is
set to `tokens.length - i` by the wrapper, making the two exits agree).
A candidate in the failed set is skipped without probing; otherwise it is
probed, its snapshot cached, and it is either adopted (first fit) or added
to the failed set. -/
def selectScanGo (env : Env) (threshold : ℚ) (tokens : List String) :
    Nat → Nat → List (String × CreditInfo) → List String → ScanResult
  | 0, _, credits, failed =>
      ⟨credits, failed, [],
        Except.error (ApifyError.noCredentialAvailable noTokensMsg)⟩
  | fuel + 1, i, credits, failed =>
      if h : i < tokens.length then
        let token := tokens[i]
        if token ∈ failed then
          selectScanGo env threshold tokens fuel (i + 1) credits failed
        else
          let info := getTokenCredits env token
          let credits2 := setCredit credits token info
          if qualifies threshold info then
            ⟨credits2, failed, [token], Except.ok (i, token)⟩
          else
            let r := selectScanGo env threshold tokens fuel (i + 1) credits2
              (token :: failed)
            ⟨r.credits, r.failed, token :: r.probes, r.outcome⟩
      else
        ⟨credits, failed, [],
          Except.error (ApifyError.noCredentialAvailable noTokensMsg)⟩

/-- The scan loop started at index `i`. -/
def selectScan (env : Env) (threshold : ℚ) (tokens : List String) (i : Nat)
    (credits : List (String × CreditInfo)) (failed : List String) :
    ScanResult :=
  selectScanGo env threshold tokens (tokens.length - i) i credits failed

/-- `selectNextToken()`: run the scan from the current index; on adoption
set `currentToken`, `currentTokenIndex` and the module-level global; on
exhaustion throw `NoCredentialAvailable` (state updates made before the
throw persist, as they do on the mutated JS instance).  Returns the new
state, the probe log, and the result. -/
def ApifyTokenManager.selectNextToken (env : Env) (threshold : ℚ)
    (st : ApifyTokenManager) :
    ApifyTokenManager × List String × Except ApifyError String :=
  let r := selectScan env threshold st.tokens st.currentTokenIndex
    st.tokenCredits st.failedTokens
  match r.outcome with
  | Except.ok (i, token) =>
      ({ st with tokenCredits := r.credits, failedTokens := r.failed,
                 currentToken := some token, currentTokenIndex := i,
                 globalCurrentToken := some token },
       r.probes, Except.ok token)
  | Except.error e =>
      ({ st with tokenCredits := r.credits, failedTokens := r.failed },
       r.probes, Except.error e)

/-- `getCurrentToken()` (the instance method): if no token is selected
(`!this.currentToken` — null or the falsy empty string), delegate to
`selectNextToken`; otherwise refresh the module-level global and return
the cached token without probing. -/
def ApifyTokenManager.getCurrentToken (env : Env) (threshold : ℚ)
    (st : ApifyTokenManager) :
    ApifyTokenManager × List String × Except ApifyError String :=
  match st.currentToken with
  | none => st.selectNextToken env threshold
  | some t =>
      if t = "" then st.selectNextToken env threshold
      else ({ st with globalCurrentToken := some t }, [], Except.ok t)

/-- `resetFailedTokens()`: clears the failed-token cache. -/
def ApifyTokenManager.resetFailedTokens (st : ApifyTokenManager) :
    ApifyTokenManager :=
  { st with failedTokens := [] }

/-- `checkAllTokens()`: probe every configured token, write each result
into the snapshot cache in order, and return the results in configured
token order. -/
def ApifyTokenManager.checkAllTokens (env : Env) (st : ApifyTokenManager) :
    ApifyTokenManager × List CreditInfo :=
  let results := st.tokens.map (getTokenCredits env)
  let cache := results.foldl (fun m r => setCredit m r.token r)
    st.tokenCredits
  ({ st with tokenCredits := cache }, results)

/-- Body of the `try` block of `checkAndRotateToken()`: re-probe the
current token only; if it still qualifies, keep it (the fresh snapshot is
cached either way); otherwise mark it failed, advance the index past it,
clear the selection and delegate to `selectNextToken` (whose
`NoCredentialAvailable` throw escapes this body). -/
def ApifyTokenManager.checkAndRotateTokenBody (env : Env) (threshold : ℚ)
    (st : ApifyTokenManager) :
    ApifyTokenManager × List String × Except ApifyError Unit :=
  match st.currentToken with
  | none => (st, [], Except.ok ())
  | some tok =>
      if tok = "" then (st, [], Except.ok ())
      else
      let info := getTokenCredits env tok
      let st1 := { st with tokenCredits := setCredit st.tokenCredits tok info }
      if qualifies threshold info then
        (st1, [tok], Except.ok ())
      else
        let st2 := { st1 with
          failedTokens := st1.failedTokens.insert tok,
          currentTokenIndex := st1.currentTokenIndex + 1,
          currentToken := none }
        let r := st2.selectNextToken env threshold
        (r.fst, tok :: r.snd.fst, (r.snd.snd).map (fun _ => ()))

/-- `checkAndRotateToken()`: the body wrapped in `try/catch` — any error
is logged and swallowed, never propagated; state updates made before the
throw persist. -/
def ApifyTokenManager.checkAndRotateToken (env : Env) (threshold : ℚ)
    (st : ApifyTokenManager) : ApifyTokenManager × List String :=
  let r := st.checkAndRotateTokenBody env threshold
  (r.fst, r.snd.fst)

/-- Environment of the gateway: the account-status endpoints plus the
actor-execution provider.  `actorRun token actorId` is the combined
`actor(actorId).call(parameters)` / `dataset(...).listItems()` round trip,
returning the item collection or the provider error; items are opaque. -/
structure GatewayEnv where
  net : Env
  actorRun : String → String → Except String (List String)

/-- Everything observable about one `runActorAndGetResults` invocation:
the final pool state, the probes performed while obtaining the token, the
probes performed by the detached post-call check, the remote actor calls
attempted (token, actorId), and the returned result. -/
structure RunOutcome where
  state : ApifyTokenManager
  probes : List String
  bgProbes : List String
  actorCalls : List (String × String)
  result : Except ApifyError (List String)

/-- `runActorAndGetResults(actorId, parameters)` from
`modules/apify/index.js`: get the current token (cached, no checking),
run the actor with it, list the dataset items, then fire the
non-blocking `checkAndRotateToken()` whose errors are caught, and return
the items.  A failure while obtaining the token propagates before any
actor call is attempted; an actor failure propagates without a post-call
check (the `await` throws past it). -/
def runActorAndGetResults (genv : GatewayEnv) (threshold : ℚ)
    (st : ApifyTokenManager) (actorId : String) : RunOutcome :=
  match st.getCurrentToken genv.net threshold with
  | (st1, probes, Except.error e) =>
      ⟨st1, probes, [], [], Except.error e⟩
  | (st1, probes, Except.ok token) =>
      match genv.actorRun token actorId with
      | Except.error msg =>
          ⟨st1, probes, [], [(token, actorId)],
            Except.error (ApifyError.actorFailed msg)⟩
      | Except.ok items =>
          let bg := st1.checkAndRotateToken genv.net threshold
          ⟨bg.fst, probes, bg.snd, [(token, actorId)], Except.ok items⟩

/-- Modelled from the spec: the retry executor
(`#modules/retryable/index.js`, used by the fetch modules as
`retryable(operation, maxAttempts)`) is not among the repository files
available here, so its loop is modelled from the spec's contract: run the
operation, return the first success immediately, retry on failure, and
after the last failure fail with a `RetryExhausted` error wrapping the
last underlying failure.  `op` is a function of the zero-based invocation
counter; the counter argument threads the number of invocations performed
so far, returned alongside the result. -/
def retryGo {α : Type} (op : Nat → Except String α) :
    Nat → Nat → String → Except ApifyError α × Nat
  | 0, calls, lastMsg =>
      (Except.error (ApifyError.retryExhausted lastMsg), calls)
  | n + 1, calls, _ =>
      match op calls with
      | Except.ok a => (Except.ok a, calls + 1)
      | Except.error msg => retryGo op n (calls + 1) msg

/-- Modelled from the spec: `executeWithRetry(operation, maxAttempts)`
runs the operation up to `maxAttempts` times (see `retryGo`).  Returns
the final result together with the number of invocations performed. -/
def executeWithRetry {α : Type} (op : Nat → Except String α)
    (maxAttempts : Nat) : Except ApifyError α × Nat :=
  retryGo op maxAttempts 0 "operation was never attempted"

/-! Helper lemmas about the embedded operations. -/

/-- Unfolding of the selection guard. -/
lemma qualifies_eq_true_iff (threshold : ℚ) (info : CreditInfo) :
    qualifies threshold info = true ↔
      info.isValid = true ∧ threshold ≤ info.remainingCredits := by
  simp [qualifies]

/-- Unfolding of the negated selection guard. -/
lemma qualifies_eq_false_iff (threshold : ℚ) (info : CreditInfo) :
    qualifies threshold info = false ↔
      info.isValid = false ∨ info.remainingCredits < threshold := by
  cases h : info.isValid <;> simp [qualifies, h]

/-- A probe labels its snapshot with the probed token. -/
lemma getTokenCredits_token (env : Env) (t : String) :
    (getTokenCredits env t).token = t := by
  unfold getTokenCredits
  cases env.userEndpoint t with
  | error msg => rfl
  | ok u =>
      cases env.usageEndpoint t with
      | error msg => rfl
      | ok v => rfl

/-- Reading back the key just written by `setCredit`. -/
lemma lookupCredit_setCredit_self (cache : List (String × CreditInfo))
    (t : String) (info : CreditInfo) :
    lookupCredit (setCredit cache t info) t = some info := by
  unfold setCredit lookupCredit
  by_cases h : cache.any (fun p => p.fst = t)
  · simp only [if_pos h]
    induction cache with
    | nil => simp at h
    | cons p rest ih =>
        by_cases hp : p.fst = t
        · rw [List.map_cons, if_pos hp, List.find?_cons_of_pos _ (by simp)]
          rfl
        · have h' : rest.any (fun p => decide (p.fst = t)) = true := by
            simp only [List.any_cons, Bool.or_eq_true, decide_eq_true_eq]
              at h
            rcases h with h | h
            · exact absurd h hp
            · exact h
          rw [List.map_cons, if_neg hp,
            List.find?_cons_of_neg _ (by simp [hp])]
          exact ih h'
  · simp only [if_neg h]
    have hnone : cache.find? (fun p => decide (p.fst = t)) = none := by
      rw [List.find?_eq_none]
      intro x hx
      simp only [Bool.not_eq_true, decide_eq_false_iff_not]
      intro hxt
      apply h
      rw [List.any_eq_true]
      exact ⟨x, hx, by simpa using hxt⟩
    rw [List.find?_append, hnone, Option.none_or,
      List.find?_cons_of_pos _ (by simp)]
    rfl

/-- `setCredit` leaves the entries of other keys untouched. -/
lemma lookupCredit_setCredit_other (cache : List (String × CreditInfo))
    (s t : String) (info : CreditInfo) (hts : t ≠ s) :
    lookupCredit (setCredit cache s info) t = lookupCredit cache t := by
  have hst : ¬s = t := fun hc => hts hc.symm
  unfold setCredit lookupCredit
  by_cases h : cache.any (fun p => p.fst = s)
  · simp only [if_pos h]
    clear h
    induction cache with
    | nil => rfl
    | cons p rest ih =>
        rw [List.map_cons]
        by_cases hp : p.fst = s
        · rw [if_pos hp, List.find?_cons_of_neg _ (by simp [hst]),
            List.find?_cons_of_neg _
              (by simp only [decide_eq_true_eq]
                  exact fun hc => hst (hp.symm.trans hc))]
          exact ih
        · rw [if_neg hp]
          by_cases hq : p.fst = t
          · rw [List.find?_cons_of_pos _ (by simp [hq]),
              List.find?_cons_of_pos _ (by simp [hq])]
          · rw [List.find?_cons_of_neg _ (by simp [hq]),
              List.find?_cons_of_neg _ (by simp [hq])]
            exact ih
  · simp only [if_neg h]
    rw [List.find?_append, List.find?_cons_of_neg _ (by simp [hst]),
      List.find?_nil, Option.or_none]

/-- The scan only ever adds tokens to the failed set. -/
lemma selectScanGo_failed_mono (env : Env) (threshold : ℚ)
    (tokens : List String) :
    ∀ fuel i credits failed, failed ⊆
      (selectScanGo env threshold tokens fuel i credits failed).failed := by
  intro fuel
  induction fuel with
  | zero =>
      intro i credits failed
      rw [selectScanGo]
      exact fun a ha => ha
  | succ n ih =>
      intro i credits failed
      rw [selectScanGo]
      by_cases h : i < tokens.length
      · simp only [dif_pos h]
        by_cases hf : tokens[i] ∈ failed
        · simp only [if_pos hf]
          exact ih (i + 1) credits failed
        · simp only [if_neg hf]
          by_cases hq :
              qualifies threshold (getTokenCredits env tokens[i]) = true
          · simp only [if_pos hq]
            exact fun a ha => ha
          · simp only [if_neg hq]
            intro a ha
            exact ih (i + 1) _ (tokens[i] :: failed)
              (List.mem_cons_of_mem _ ha)
      · simp only [dif_neg h]
        exact fun a ha => ha

/-- A token already in the failed set is never probed by the scan. -/
lemma selectScanGo_skips_failed (env : Env) (threshold : ℚ)
    (tokens : List String) :
    ∀ fuel i credits failed t, t ∈ failed →
      t ∉ (selectScanGo env threshold tokens fuel i credits failed).probes := by
  intro fuel
  induction fuel with
  | zero =>
      intro i credits failed t ht
      rw [selectScanGo]
      exact List.not_mem_nil t
  | succ n ih =>
      intro i credits failed t ht
      rw [selectScanGo]
      by_cases h : i < tokens.length
      · simp only [dif_pos h]
        by_cases hf : tokens[i] ∈ failed
        · simp only [if_pos hf]
          exact ih (i + 1) credits failed t ht
        · simp only [if_neg hf]
          have hne : t ≠ tokens[i] := fun hc => hf (hc ▸ ht)
          by_cases hq :
              qualifies threshold (getTokenCredits env tokens[i]) = true
          · simp only [if_pos hq]
            simp [hne]
          · simp only [if_neg hq]
            intro hmem
            rcases List.mem_cons.mp hmem with hc | hc
            · exact hne hc
            · exact ih (i + 1) _ (tokens[i] :: failed) t
                (List.mem_cons_of_mem _ ht) hc
      · simp only [dif_neg h]
        exact List.not_mem_nil t

/-- Every token probed by the scan occurs in the candidate list at or
after the start index: the scan proceeds in order and never wraps. -/
lemma selectScanGo_probes_sub (env : Env) (threshold : ℚ)
    (tokens : List String) :
    ∀ fuel i credits failed t,
      t ∈ (selectScanGo env threshold tokens fuel i credits failed).probes →
      t ∈ tokens.drop i := by
  intro fuel
  induction fuel with
  | zero =>
      intro i credits failed t ht
      rw [selectScanGo] at ht
      exact absurd ht (List.not_mem_nil t)
  | succ n ih =>
      intro i credits failed t ht
      rw [selectScanGo] at ht
      by_cases h : i < tokens.length
      · simp only [dif_pos h] at ht
        have hdrop : tokens.drop i = tokens[i] :: tokens.drop (i + 1) :=
          List.drop_eq_getElem_cons h
        by_cases hf : tokens[i] ∈ failed
        · simp only [if_pos hf] at ht
          rw [hdrop]
          exact List.mem_cons_of_mem _ (ih (i + 1) credits failed t ht)
        · simp only [if_neg hf] at ht
          by_cases hq :
              qualifies threshold (getTokenCredits env tokens[i]) = true
          · simp only [if_pos hq] at ht
            rw [hdrop]
            rcases List.mem_singleton.mp ht with rfl
            exact List.mem_cons_self _ _
          · simp only [if_neg hq] at ht
            rw [hdrop]
            rcases List.mem_cons.mp ht with hc | hc
            · exact hc ▸ List.mem_cons_self _ _
            · exact List.mem_cons_of_mem _
                (ih (i + 1) _ (tokens[i] :: failed) t hc)
      · simp only [dif_neg h] at ht
        exact absurd ht (List.not_mem_nil t)

/-- Every token in the final failed set was either failed before the scan
or was probed by the scan and disqualified. -/
lemma selectScanGo_failed_source (env : Env) (threshold : ℚ)
    (tokens : List String) :
    ∀ fuel i credits failed t,
      t ∈ (selectScanGo env threshold tokens fuel i credits failed).failed →
      t ∈ failed ∨
        (t ∈ (selectScanGo env threshold tokens fuel i credits
          failed).probes ∧
          qualifies threshold (getTokenCredits env t) = false) := by
  intro fuel
  induction fuel with
  | zero =>
      intro i credits failed t ht
      rw [selectScanGo] at ht ⊢
      exact Or.inl ht
  | succ n ih =>
      intro i credits failed t ht
      rw [selectScanGo] at ht ⊢
      by_cases h : i < tokens.length
      · simp only [dif_pos h] at ht ⊢
        by_cases hf : tokens[i] ∈ failed
        · simp only [if_pos hf] at ht ⊢
          exact ih (i + 1) credits failed t ht
        · simp only [if_neg hf] at ht ⊢
          by_cases hq :
              qualifies threshold (getTokenCredits env tokens[i]) = true
          · simp only [if_pos hq] at ht ⊢
            exact Or.inl ht
          · simp only [if_neg hq] at ht ⊢
            rcases ih (i + 1) _ (tokens[i] :: failed) t ht with hc | hc
            · rcases List.mem_cons.mp hc with rfl | hc2
              · exact Or.inr ⟨List.mem_cons_self _ _,
                  Bool.not_eq_true _ ▸ Bool.eq_false_iff.mpr hq⟩
              · exact Or.inl hc2
            · exact Or.inr ⟨List.mem_cons_of_mem _ hc.1, hc.2⟩
      · simp only [dif_neg h] at ht ⊢
        exact Or.inl ht

/-- Every token the scan probes and disqualifies ends in the failed set. -/
lemma selectScanGo_disqualified_failed (env : Env) (threshold : ℚ)
    (tokens : List String) :
    ∀ fuel i credits failed t,
      t ∈ (selectScanGo env threshold tokens fuel i credits failed).probes →
      qualifies threshold (getTokenCredits env t) = false →
      t ∈ (selectScanGo env threshold tokens fuel i credits failed).failed := by
  intro fuel
  induction fuel with
  | zero =>
      intro i credits failed t ht
      rw [selectScanGo] at ht ⊢
      exact absurd ht (List.not_mem_nil t)
  | succ n ih =>
      intro i credits failed t ht hdq
      rw [selectScanGo] at ht ⊢
      by_cases h : i < tokens.length
      · simp only [dif_pos h] at ht ⊢
        by_cases hf : tokens[i] ∈ failed
        · simp only [if_pos hf] at ht ⊢
          exact ih (i + 1) credits failed t ht hdq
        · simp only [if_neg hf] at ht ⊢
          by_cases hq :
              qualifies threshold (getTokenCredits env tokens[i]) = true
          · simp only [if_pos hq] at ht ⊢
            rcases List.mem_singleton.mp ht with rfl
            rw [hq] at hdq
            exact absurd hdq (by simp)
          · simp only [if_neg hq] at ht ⊢
            rcases List.mem_cons.mp ht with hc | hc
            · exact selectScanGo_failed_mono env threshold tokens n (i + 1)
                _ _ (by rw [hc]; exact List.mem_cons_self _ _)
            · exact ih (i + 1) _ (tokens[i] :: failed) t hc hdq
      · simp only [dif_neg h] at ht ⊢
        exact absurd ht (List.not_mem_nil t)

/-- First-fit adoption: if position `j` holds the first candidate at or
after the start index that is neither failed nor disqualified, the scan
adopts exactly it — outcome `(j, tokens[j])`, its fresh snapshot in the
cache — and probes every non-failed candidate from the start index up to
`j`. -/
lemma selectScanGo_first_fit (env : Env) (threshold : ℚ)
    (tokens : List String) :
    ∀ fuel i credits failed j (hj : j < tokens.length),
      tokens.length ≤ i + fuel →
      i ≤ j →
      tokens[j] ∉ failed →
      qualifies threshold (getTokenCredits env tokens[j]) = true →
      (∀ k (hk : k < tokens.length), i ≤ k → k < j →
        tokens[k] ∉ failed →
        qualifies threshold (getTokenCredits env tokens[k]) = false) →
      (selectScanGo env threshold tokens fuel i credits failed).outcome =
        Except.ok (j, tokens[j]) ∧
      lookupCredit
        (selectScanGo env threshold tokens fuel i credits failed).credits
        tokens[j] = some (getTokenCredits env tokens[j]) ∧
      (∀ k (hk : k < tokens.length), i ≤ k → k ≤ j → tokens[k] ∉ failed →
        tokens[k] ∈
          (selectScanGo env threshold tokens fuel i credits failed).probes) := by
  intro fuel
  induction fuel with
  | zero =>
      intro i credits failed j hj hfuel hij hnf hq hmin
      exfalso
      omega
  | succ n ih =>
      intro i credits failed j hj hfuel hij hnf hq hmin
      have h : i < tokens.length := lt_of_le_of_lt hij hj
      rw [selectScanGo]
      simp only [dif_pos h]
      by_cases hf : tokens[i] ∈ failed
      · have hine : i ≠ j := fun hc => hnf (hc ▸ hf)
        simp only [if_pos hf]
        have hrec := ih (i + 1) credits failed j hj (by omega) (by omega)
          hnf hq (fun k hk h1 h2 h3 => hmin k hk (by omega) h2 h3)
        refine ⟨hrec.1, hrec.2.1, ?_⟩
        intro k hk h1 h2 h3
        have hik : i + 1 ≤ k := by
          rcases Nat.eq_or_lt_of_le h1 with rfl | hlt
          · exact absurd hf h3
          · omega
        exact hrec.2.2 k hk hik h2 h3
      · simp only [if_neg hf]
        rcases Nat.eq_or_lt_of_le hij with rfl | hlt
        · simp only [if_pos hq]
          refine ⟨trivial, ?_, ?_⟩
          · exact lookupCredit_setCredit_self credits _ _
          · intro k hk h1 h2 h3
            have hki : k = i := by omega
            subst hki
            exact List.mem_cons_self _ _
        · have hdq : qualifies threshold (getTokenCredits env tokens[i]) =
              false := hmin i h (le_refl i) hlt hf
          have hq' :
              ¬(qualifies threshold (getTokenCredits env tokens[i]) = true) :=
            by rw [hdq]; simp
          simp only [if_neg hq']
          have hnf' : tokens[j] ∉ tokens[i] :: failed := by
            intro hm
            rcases List.mem_cons.mp hm with hc | hc
            · rw [hc] at hq
              rw [hq] at hdq
              exact absurd hdq (by simp)
            · exact hnf hc
          have hmin' : ∀ k (hk : k < tokens.length), i + 1 ≤ k → k < j →
              tokens[k] ∉ tokens[i] :: failed →
              qualifies threshold (getTokenCredits env tokens[k]) = false :=
            fun k hk h1 h2 h3 =>
              hmin k hk (by omega) h2 (fun hc => h3 (List.mem_cons_of_mem _ hc))
          have hrec := ih (i + 1) (setCredit credits tokens[i]
            (getTokenCredits env tokens[i])) (tokens[i] :: failed) j hj
            (by omega) (by omega) hnf' hq hmin'
          refine ⟨hrec.1, hrec.2.1, ?_⟩
          intro k hk h1 h2 h3
          by_cases hki : tokens[k] = tokens[i]
          · rw [hki]
            exact List.mem_cons_self _ _
          · have hik : i + 1 ≤ k := by
              rcases Nat.eq_or_lt_of_le h1 with rfl | hlt2
              · exact absurd rfl hki
              · omega
            have h3' : tokens[k] ∉ tokens[i] :: failed := by
              intro hm
              rcases List.mem_cons.mp hm with hc | hc
              · exact hki hc
              · exact h3 hc
            exact List.mem_cons_of_mem _ (hrec.2.2 k hk hik h2 h3')

/-- Exhaustion: when every candidate at or after the start index that is
not already failed is disqualified by its probe, the scan ends with the
`NoCredentialAvailable` error. -/
lemma selectScanGo_exhaust (env : Env) (threshold : ℚ)
    (tokens : List String) :
    ∀ fuel i credits failed,
      (∀ t, t ∈ tokens.drop i → t ∉ failed →
        qualifies threshold (getTokenCredits env t) = false) →
      (selectScanGo env threshold tokens fuel i credits failed).outcome =
        Except.error (ApifyError.noCredentialAvailable noTokensMsg) := by
  intro fuel
  induction fuel with
  | zero =>
      intro i credits failed hall
      rw [selectScanGo]
  | succ n ih =>
      intro i credits failed hall
      rw [selectScanGo]
      by_cases h : i < tokens.length
      · simp only [dif_pos h]
        have hdrop : tokens.drop i = tokens[i] :: tokens.drop (i + 1) :=
          List.drop_eq_getElem_cons h
        by_cases hf : tokens[i] ∈ failed
        · simp only [if_pos hf]
          exact ih (i + 1) credits failed (fun t htm htf =>
            hall t (by rw [hdrop]; exact List.mem_cons_of_mem _ htm) htf)
        · have hdq := hall tokens[i]
            (by rw [hdrop]; exact List.mem_cons_self _ _) hf
          have hq' :
              ¬(qualifies threshold (getTokenCredits env tokens[i]) = true) :=
            by rw [hdq]; simp
          simp only [if_neg hf, if_neg hq']
          exact ih (i + 1) _ (tokens[i] :: failed) (fun t htm htf =>
            hall t (by rw [hdrop]; exact List.mem_cons_of_mem _ htm)
              (fun hc => htf (List.mem_cons_of_mem _ hc)))
      · simp only [dif_neg h]

/-! Concrete environments and states used to instantiate the theorems. -/

/-- Environment with two live accounts: `tokA` has remaining credits
`0.05` (below the `0.1` fallback threshold), `tokB` has `5.0`; any other
token fails authorization on both endpoints. -/
def envTwo : Env :=
  { userEndpoint := fun token =>
      if token = "tokA" then Except.ok ⟨some (1/20)⟩
      else if token = "tokB" then Except.ok ⟨some 5⟩
      else Except.error "Request failed with status code 401",
    usageEndpoint := fun token =>
      if token = "tokA" then Except.ok ⟨some 0⟩
      else if token = "tokB" then Except.ok ⟨some 0⟩
      else Except.error "Request failed with status code 401" }

/-- Environment in which every token has ample remaining credits (5.0);
models the pool after a billing refill. -/
def envRich : Env :=
  { userEndpoint := fun _ => Except.ok ⟨some 5⟩,
    usageEndpoint := fun _ => Except.ok ⟨some 0⟩ }

/-- Environment in which every account read fails (all tokens revoked). -/
def envDead : Env :=
  { userEndpoint := fun _ => Except.error "Request failed with status code 401",
    usageEndpoint := fun _ => Except.error "Request failed with status code 401" }

/-- Snapshot `getTokenCredits envTwo "tokA"`: valid with 0.05 remaining. -/
def infoA : CreditInfo :=
  { token := "tokA", includedCredits := 1/20, usedCredits := 0,
    remainingCredits := 1/20, isValid := true, error := none }

/-- Snapshot `getTokenCredits envTwo "tokB"`: valid with 5.0 remaining. -/
def infoB : CreditInfo :=
  { token := "tokB", includedCredits := 5, usedCredits := 0,
    remainingCredits := 5, isValid := true, error := none }

/-- Freshly constructed manager over the pool `[tokA, tokB]`. -/
def stAB : ApifyTokenManager :=
  { tokens := ["tokA", "tokB"], tokenCredits := [], currentToken := none,
    currentTokenIndex := 0, failedTokens := [], globalCurrentToken := none }

lemma probeA : getTokenCredits envTwo "tokA" = infoA := by
  simp [getTokenCredits, envTwo, infoA]

lemma probeB : getTokenCredits envTwo "tokB" = infoB := by
  simp [getTokenCredits, envTwo, infoB]

lemma qualA : qualifies (MIN_CREDITS_THRESHOLD none) infoA = false := by
  norm_num [qualifies, infoA, MIN_CREDITS_THRESHOLD]

lemma qualB : qualifies (MIN_CREDITS_THRESHOLD none) infoB = true := by
  norm_num [qualifies, infoB, MIN_CREDITS_THRESHOLD]

/-! The claims. -/

/-- C1: `selectNextToken` scans the configured token list strictly in
order starting at the current index without wrapping; for each candidate
not in the failed set it probes fresh, adopts the first token whose probe
is valid with `remaining ≥ MIN_THRESHOLD` (setting the current index and
caching the snapshot), and adds every disqualified probed candidate (and
nothing else) to the failed set. -/
theorem C1_selectNextToken_first_fit (env : Env) (threshold : ℚ)
    (st : ApifyTokenManager) (j : Nat) (hj : j < st.tokens.length)
    (hij : st.currentTokenIndex ≤ j)
    (hnf : st.tokens[j] ∉ st.failedTokens)
    (hq : qualifies threshold (getTokenCredits env st.tokens[j]) = true)
    (hmin : ∀ k (hk : k < st.tokens.length), st.currentTokenIndex ≤ k →
      k < j → st.tokens[k] ∉ st.failedTokens →
      qualifies threshold (getTokenCredits env st.tokens[k]) = false) :
    (st.selectNextToken env threshold).2.2 = Except.ok st.tokens[j] ∧
    (st.selectNextToken env threshold).1.currentToken = some st.tokens[j] ∧
    (st.selectNextToken env threshold).1.currentTokenIndex = j ∧
    lookupCredit (st.selectNextToken env threshold).1.tokenCredits
      st.tokens[j] = some (getTokenCredits env st.tokens[j]) ∧
    (∀ t, t ∈ (st.selectNextToken env threshold).2.1 →
      t ∈ st.tokens.drop st.currentTokenIndex) ∧
    (∀ t, t ∈ st.failedTokens → t ∉ (st.selectNextToken env threshold).2.1) ∧
    (∀ k (hk : k < st.tokens.length), st.currentTokenIndex ≤ k → k ≤ j →
      st.tokens[k] ∉ st.failedTokens →
      st.tokens[k] ∈ (st.selectNextToken env threshold).2.1) ∧
    (∀ t, t ∈ (st.selectNextToken env threshold).1.failedTokens ↔
      t ∈ st.failedTokens ∨
        (t ∈ (st.selectNextToken env threshold).2.1 ∧
          qualifies threshold (getTokenCredits env t) = false)) := by
  have hff := selectScanGo_first_fit env threshold st.tokens
    (st.tokens.length - st.currentTokenIndex) st.currentTokenIndex
    st.tokenCredits st.failedTokens j hj (by omega) hij hnf hq hmin
  simp only [ApifyTokenManager.selectNextToken, selectScan]
  rw [hff.1]
  refine ⟨rfl, rfl, rfl, hff.2.1, ?_, ?_, hff.2.2, ?_⟩
  · exact fun t ht => selectScanGo_probes_sub env threshold st.tokens _ _ _ _
      t ht
  · exact fun t ht => selectScanGo_skips_failed env threshold st.tokens _ _ _
      _ t ht
  · intro t
    constructor
    · intro ht
      exact selectScanGo_failed_source env threshold st.tokens _ _ _ _ t ht
    · intro ht
      rcases ht with ht | ht
      · exact selectScanGo_failed_mono env threshold st.tokens _ _ _ _ ht
      · exact selectScanGo_disqualified_failed env threshold st.tokens _ _ _
          _ t ht.1 ht.2

/-- C1 witness: over the pool `[tokA (0.05 remaining), tokB (5.0)]` with
threshold `0.1` and scan start 0, selection adopts `tokB` at index 1 and
marks `tokA` failed. -/
theorem C1_witness :
    (stAB.selectNextToken envTwo (MIN_CREDITS_THRESHOLD none)).2.2 =
      Except.ok "tokB" ∧
    (stAB.selectNextToken envTwo
      (MIN_CREDITS_THRESHOLD none)).1.currentTokenIndex = 1 ∧
    "tokA" ∈ (stAB.selectNextToken envTwo
      (MIN_CREDITS_THRESHOLD none)).1.failedTokens := by
  have e1 : stAB.tokens[1] = "tokB" := rfl
  have e0 : stAB.tokens[0] = "tokA" := rfl
  have h := C1_selectNextToken_first_fit envTwo (MIN_CREDITS_THRESHOLD none)
    stAB 1 (by decide) (by decide)
    (by rw [e1]; decide)
    (by rw [e1, probeB]; exact qualB)
    (by
      intro k hk h1 h2 h3
      have hk0 : k = 0 := by omega
      subst hk0
      rw [e0, probeA]
      exact qualA)
  rw [e1] at h
  refine ⟨h.1, h.2.2.1, ?_⟩
  have hcov := h.2.2.2.2.2.2.1 0 (by decide) (by decide) (by decide)
    (by rw [e0]; decide)
  rw [e0] at hcov
  exact (h.2.2.2.2.2.2.2 "tokA").mpr
    (Or.inr ⟨hcov, by rw [probeA]; exact qualA⟩)

/-- C5: the threshold formula: `(limit + 100) * 0.00025` monetary units
when the volume-limit parameter is configured — so a configured limit of
100 gives exactly 0.05 — and the fixed fallback 0.1 when it is not. -/
theorem C5_threshold_formula :
    (∀ n : Int, MIN_CREDITS_THRESHOLD (some n) = ((n : ℚ) + 100) * 0.00025) ∧
    MIN_CREDITS_THRESHOLD (some 100) = 0.05 ∧
    MIN_CREDITS_THRESHOLD none = 0.1 := by
  refine ⟨fun n => rfl, ?_, rfl⟩
  norm_num [MIN_CREDITS_THRESHOLD]

/-- C6: the credit probe is a total function of the environment (it never
raises); on success of both reads it returns a valid snapshot with
`remaining = max 0 (included - used)`; on failure of either read it
returns an invalid snapshot with zero remaining and the captured message;
it labels the snapshot with the probed token and never returns a negative
remainder.  It takes no pool state and returns none: it cannot mutate the
pool. -/
theorem C6_getTokenCredits_snapshot (env : Env) (token : String) :
    0 ≤ (getTokenCredits env token).remainingCredits ∧
    (getTokenCredits env token).token = token ∧
    (∀ u v, env.userEndpoint token = Except.ok u →
      env.usageEndpoint token = Except.ok v →
      (getTokenCredits env token).isValid = true ∧
      (getTokenCredits env token).includedCredits =
        u.monthlyUsageCreditsUsd.getD 0 ∧
      (getTokenCredits env token).usedCredits =
        v.totalUsageCreditsUsdAfterVolumeDiscount.getD 0 ∧
      (getTokenCredits env token).remainingCredits =
        max 0 (u.monthlyUsageCreditsUsd.getD 0 -
          v.totalUsageCreditsUsdAfterVolumeDiscount.getD 0) ∧
      (getTokenCredits env token).error = none) ∧
    (∀ msg, env.userEndpoint token = Except.error msg →
      (getTokenCredits env token).isValid = false ∧
      (getTokenCredits env token).remainingCredits = 0 ∧
      (getTokenCredits env token).error = some msg) ∧
    (∀ u msg, env.userEndpoint token = Except.ok u →
      env.usageEndpoint token = Except.error msg →
      (getTokenCredits env token).isValid = false ∧
      (getTokenCredits env token).remainingCredits = 0 ∧
      (getTokenCredits env token).error = some msg) := by
  refine ⟨?_, getTokenCredits_token env token, ?_, ?_, ?_⟩
  · unfold getTokenCredits
    cases env.userEndpoint token with
    | error msg => exact le_refl 0
    | ok u =>
        cases env.usageEndpoint token with
        | error msg => exact le_refl 0
        | ok v => exact le_max_left 0 _
  · intro u v hu hv
    unfold getTokenCredits
    rw [hu, hv]
    exact ⟨rfl, rfl, rfl, rfl, rfl⟩
  · intro msg hu
    unfold getTokenCredits
    rw [hu]
    exact ⟨rfl, rfl, rfl⟩
  · intro u msg hu hv
    unfold getTokenCredits
    rw [hu, hv]
    exact ⟨rfl, rfl, rfl⟩

/-- C6 witness: the probe under `envTwo` on the live token `tokA` and
under `envDead` on a revoked token. -/
theorem C6_witness :
    (getTokenCredits envTwo "tokA").isValid = true ∧
    (getTokenCredits envTwo "tokA").remainingCredits =
      max 0 (1/20 - 0 : ℚ) ∧
    (getTokenCredits envDead "tokZ").isValid = false ∧
    (getTokenCredits envDead "tokZ").remainingCredits = 0 ∧
    (getTokenCredits envDead "tokZ").error =
      some "Request failed with status code 401" := by
  have h1 := (C6_getTokenCredits_snapshot envTwo "tokA").2.2.1
    ⟨some (1/20)⟩ ⟨some 0⟩ rfl rfl
  have h2 := (C6_getTokenCredits_snapshot envDead "tokZ").2.2.2.1
    "Request failed with status code 401" rfl
  exact ⟨h1.1, by rw [h1.2.2.2.1]; rfl, h2.1, h2.2.1, h2.2.2⟩

/-- Invocation count of the retry loop. -/
lemma retryGo_count {α : Type} (op : Nat → Except String α) :
    ∀ n k msg, (retryGo op n k msg).snd ≤ k + n := by
  intro n
  induction n with
  | zero =>
      intro k msg
      rw [retryGo]
      exact Nat.le_add_right k 0
  | succ m ih =>
      intro k msg
      rw [retryGo]
      cases h : op k with
      | ok a =>
          show k + 1 ≤ k + (m + 1)
          omega
      | error e =>
          show (retryGo op m (k + 1) e).snd ≤ k + (m + 1)
          calc (retryGo op m (k + 1) e).snd ≤ k + 1 + m := ih (k + 1) e
            _ = k + (m + 1) := by omega

/-- The retry loop with every attempt failing. -/
lemma retryGo_all_fail {α : Type} (op : Nat → Except String α)
    (msgF : Nat → String) :
    ∀ n k msg0, 1 ≤ n →
      (∀ j, k ≤ j → j < k + n → op j = Except.error (msgF j)) →
      retryGo op n k msg0 =
        (Except.error (ApifyError.retryExhausted (msgF (k + n - 1))),
          k + n) := by
  intro n
  induction n with
  | zero =>
      intro k msg0 h
      exact absurd h (by omega)
  | succ m ih =>
      intro k msg0 _ hfail
      rw [retryGo, hfail k (le_refl k) (by omega)]
      rcases Nat.eq_zero_or_pos m with hm | hm
      · subst hm
        rfl
      · show retryGo op m (k + 1) (msgF k) =
          (Except.error (ApifyError.retryExhausted (msgF (k + (m + 1) - 1))),
            k + (m + 1))
        rw [ih (k + 1) (msgF k) hm
          (fun j hj1 hj2 => hfail j (by omega) (by omega))]
        have e1 : k + 1 + m - 1 = k + (m + 1) - 1 := by omega
        have e2 : k + 1 + m = k + (m + 1) := by omega
        rw [e1, e2]

/-- C7: `executeWithRetry` invokes the operation at most `maxAttempts`
times; an operation that succeeds on its first invocation is invoked
exactly once and its result returned; an operation that fails on every
invocation is invoked exactly `maxAttempts` times, after which the call
fails with `RetryExhausted` wrapping the last underlying failure. -/
theorem C7_executeWithRetry (α : Type) (op : Nat → Except String α)
    (maxAttempts : Nat) :
    (executeWithRetry op maxAttempts).snd ≤ maxAttempts ∧
    (∀ a, 1 ≤ maxAttempts → op 0 = Except.ok a →
      executeWithRetry op maxAttempts = (Except.ok a, 1)) ∧
    (∀ msgF : Nat → String, 1 ≤ maxAttempts →
      (∀ k, k < maxAttempts → op k = Except.error (msgF k)) →
      executeWithRetry op maxAttempts =
        (Except.error (ApifyError.retryExhausted (msgF (maxAttempts - 1))),
          maxAttempts)) := by
  refine ⟨?_, ?_, ?_⟩
  · have := retryGo_count op maxAttempts 0 "operation was never attempted"
    simpa [executeWithRetry] using this
  · intro a hpos hop
    cases maxAttempts with
    | zero => exact absurd hpos (by omega)
    | succ m =>
        unfold executeWithRetry
        rw [retryGo, hop]
  · intro msgF hpos hfail
    unfold executeWithRetry
    have := retryGo_all_fail op msgF maxAttempts 0
      "operation was never attempted" hpos
      (fun j hj1 hj2 => hfail j (by omega))
    simpa using this

/-- C7 witness: an immediately succeeding operation is invoked once; an
always-failing operation with 3 attempts is invoked exactly 3 times and
fails with `RetryExhausted` wrapping the last error. -/
theorem C7_witness :
    executeWithRetry (fun _ => (Except.ok 42 : Except String Nat)) 3 =
      (Except.ok 42, 1) ∧
    executeWithRetry (fun _ => (Except.error "boom" : Except String Nat)) 3 =
      (Except.error (ApifyError.retryExhausted "boom"), 3) := by
  constructor
  · exact (C7_executeWithRetry Nat (fun _ => Except.ok 42) 3).2.1 42
      (by omega) rfl
  · exact (C7_executeWithRetry Nat (fun _ => Except.error "boom") 3).2.2
      (fun _ => "boom") (by omega) (fun k hk => rfl)

/-- Manager state over `[tokA, tokB]` that has already adopted `tokB` at
index 1, with `tokA` cached as failed. -/
def stB : ApifyTokenManager :=
  { tokens := ["tokA", "tokB"], tokenCredits := [],
    currentToken := some "tokB", currentTokenIndex := 1,
    failedTokens := ["tokA"], globalCurrentToken := some "tokB" }

/-- Gateway environment over `envTwo` whose actor runs always return a
single item. -/
def genvTwo : GatewayEnv :=
  { net := envTwo, actorRun := fun _ _ => Except.ok ["item1"] }

/-- Gateway environment in which every account read fails. -/
def genvDead : GatewayEnv :=
  { net := envDead, actorRun := fun _ _ => Except.ok ["item1"] }

/-- C8: `getCurrentToken` is the cheap accessor: whenever a (truthy)
token is already selected it returns it with zero probes — and so does an
immediately repeated call, the only state change being the module-level
global; only when no token is selected (`!this.currentToken`: null, or
the falsy empty string) does it delegate to `selectNextToken`. -/
theorem C8_getCurrentToken_cached (env : Env) (threshold : ℚ)
    (st : ApifyTokenManager) :
    (∀ t, st.currentToken = some t → t ≠ "" →
      st.getCurrentToken env threshold =
        ({ st with globalCurrentToken := some t }, [], Except.ok t)) ∧
    (∀ t, st.currentToken = some t → t ≠ "" →
      ((st.getCurrentToken env threshold).1.getCurrentToken env
        threshold).2.1 = [] ∧
      ((st.getCurrentToken env threshold).1.getCurrentToken env
        threshold).2.2 = Except.ok t) ∧
    (st.currentToken = none →
      st.getCurrentToken env threshold = st.selectNextToken env threshold) := by
  refine ⟨?_, ?_, ?_⟩
  · intro t ht hne
    simp only [ApifyTokenManager.getCurrentToken, ht, hne, ite_false]
  · intro t ht hne
    have h1 : st.getCurrentToken env threshold =
        ({ st with globalCurrentToken := some t }, [], Except.ok t) := by
      simp only [ApifyTokenManager.getCurrentToken, ht, hne, ite_false]
    rw [h1]
    simp only [ApifyTokenManager.getCurrentToken, ht, hne, ite_false]
    exact ⟨trivial, trivial⟩
  · intro ht
    unfold ApifyTokenManager.getCurrentToken
    rw [ht]

/-- C8 witness: with `tokB` cached, two successive calls return it with
no probes at all. -/
theorem C8_witness :
    (stB.getCurrentToken envTwo (MIN_CREDITS_THRESHOLD none)).2.1 = [] ∧
    (stB.getCurrentToken envTwo (MIN_CREDITS_THRESHOLD none)).2.2 =
      Except.ok "tokB" ∧
    ((stB.getCurrentToken envTwo
        (MIN_CREDITS_THRESHOLD none)).1.getCurrentToken envTwo
      (MIN_CREDITS_THRESHOLD none)).2.1 = [] := by
  have h := C8_getCurrentToken_cached envTwo (MIN_CREDITS_THRESHOLD none) stB
  have h1 := h.1 "tokB" rfl (by decide)
  have h2 := h.2.1 "tokB" rfl (by decide)
  exact ⟨by rw [h1], by rw [h1], h2.1⟩

/-- C9 counterexample: constructing the pool from the list
`["", "  x  "]` keeps the empty token and the untrimmed token verbatim:
the constructor neither trims nor drops empties for list input, contrary
to the claim (dropping empties would leave the claimed construction of
`[""]` failing, but it succeeds with the empty token in the pool). -/
theorem C9_counterexample :
    (mkApifyTokenManager (TokenSource.ofList ["", "  x  "])).toOption.map
      ApifyTokenManager.tokens = some ["", "  x  "] := rfl

/-- C9 (amended): construction from a comma-separated string splits on
commas, trims each piece and drops empties, failing with the
configuration error when nothing remains; construction from a list
accepts the tokens verbatim (no trimming, no dropping), failing only on
the empty list; any other input type fails with the configuration error;
every successfully constructed pool holds at least one token and starts
with an empty cache, no selection and no failed tokens. -/
theorem C9_construction :
    (∀ s : String,
      (parseTokens s ≠ [] →
        mkApifyTokenManager (TokenSource.ofString s) =
          Except.ok
            { tokens := parseTokens s,
              tokenCredits := [], currentToken := none,
              currentTokenIndex := 0, failedTokens := [],
              globalCurrentToken := none }) ∧
      (parseTokens s = [] →
        mkApifyTokenManager (TokenSource.ofString s) =
          Except.error
            (ApifyError.configError "No valid Apify tokens provided"))) ∧
    (∀ l : List String,
      (l ≠ [] →
        mkApifyTokenManager (TokenSource.ofList l) =
          Except.ok
            { tokens := l, tokenCredits := [], currentToken := none,
              currentTokenIndex := 0, failedTokens := [],
              globalCurrentToken := none }) ∧
      (l = [] →
        mkApifyTokenManager (TokenSource.ofList l) =
          Except.error
            (ApifyError.configError "No valid Apify tokens provided"))) ∧
    mkApifyTokenManager TokenSource.otherType =
      Except.error (ApifyError.configError
        "Tokens must be a comma-separated string or array") ∧
    (∀ source st, mkApifyTokenManager source = Except.ok st →
      st.tokens ≠ []) := by
  refine ⟨?_, ?_, rfl, ?_⟩
  · intro s
    constructor
    · intro hne
      simp only [mkApifyTokenManager]
      rw [if_neg (by simpa [List.length_eq_zero] using hne)]
    · intro heq
      simp only [mkApifyTokenManager]
      rw [if_pos (by simpa [List.length_eq_zero] using heq)]
  · intro l
    constructor
    · intro hne
      simp only [mkApifyTokenManager]
      rw [if_neg (by simpa [List.length_eq_zero] using hne)]
    · intro heq
      simp only [mkApifyTokenManager]
      rw [if_pos (by simpa [List.length_eq_zero] using heq)]
  · intro source st hok
    cases source with
    | ofString s =>
        simp only [mkApifyTokenManager] at hok
        by_cases h : (parseTokens s).length = 0
        · rw [if_pos h] at hok
          exact absurd hok (by simp)
        · rw [if_neg h] at hok
          have := Except.ok.inj hok
          rw [← this]
          simpa [List.length_eq_zero] using h
    | ofList l =>
        simp only [mkApifyTokenManager] at hok
        by_cases h : l.length = 0
        · rw [if_pos h] at hok
          exact absurd hok (by simp)
        · rw [if_neg h] at hok
          have := Except.ok.inj hok
          rw [← this]
          simpa [List.length_eq_zero] using h
    | otherType => exact absurd hok (by simp [mkApifyTokenManager])

/-- C9 witness: a comma-separated string with blanks and empties parses
to the two trimmed tokens; the empty list and a non-string non-list
input are rejected. -/
theorem C9_witness :
    mkApifyTokenManager (TokenSource.ofString " tokA , ,tokB ") =
      Except.ok
        { tokens := ["tokA", "tokB"], tokenCredits := [],
          currentToken := none, currentTokenIndex := 0, failedTokens := [],
          globalCurrentToken := none } ∧
    mkApifyTokenManager (TokenSource.ofList []) =
      Except.error (ApifyError.configError "No valid Apify tokens provided") ∧
    mkApifyTokenManager TokenSource.otherType =
      Except.error (ApifyError.configError
        "Tokens must be a comma-separated string or array") := by
  have h := C9_construction
  refine ⟨?_, (h.2.1 []).2 rfl, h.2.2.1⟩
  have hs := (h.1 " tokA , ,tokB ").1 (by decide)
  rw [hs]
  rfl

/-- Writing probe results for a list of tokens leaves the entries of
keys outside the list untouched. -/
lemma foldlSetCredit_lookup_other (env : Env) :
    ∀ (toks : List String) (cache : List (String × CreditInfo))
      (t : String), t ∉ toks →
      lookupCredit
        (toks.foldl (fun m tk => setCredit m tk (getTokenCredits env tk))
          cache) t = lookupCredit cache t := by
  intro toks
  induction toks with
  | nil =>
      intro cache t h
      rfl
  | cons s rest ih =>
      intro cache t h
      rw [List.foldl_cons]
      have hts : t ≠ s := fun hc => h (by rw [hc]; exact List.mem_cons_self _ _)
      rw [ih _ t (fun hc => h (List.mem_cons_of_mem _ hc)),
        lookupCredit_setCredit_other _ _ _ _ hts]

/-- After writing probe results for a list of tokens, every token of the
list maps to its fresh probe result. -/
lemma foldlSetCredit_lookup_mem (env : Env) :
    ∀ (toks : List String) (cache : List (String × CreditInfo))
      (t : String), t ∈ toks →
      lookupCredit
        (toks.foldl (fun m tk => setCredit m tk (getTokenCredits env tk))
          cache) t = some (getTokenCredits env t) := by
  intro toks
  induction toks with
  | nil =>
      intro cache t h
      exact absurd h (List.not_mem_nil t)
  | cons s rest ih =>
      intro cache t h
      rw [List.foldl_cons]
      by_cases hr : t ∈ rest
      · exact ih _ t hr
      · have hts : t = s := by
          rcases List.mem_cons.mp h with hc | hc
          · exact hc
          · exact absurd hc hr
        subst hts
        rw [foldlSetCredit_lookup_other env rest _ t hr,
          lookupCredit_setCredit_self]

/-- C10: `checkAllTokens` returns the fresh snapshots in configured token
order and only replaces snapshot-cache entries: the configured tokens,
the current selection, the scan index, the failed set and the global are
all left unchanged — even when every probe reports invalid — while every
configured token's cache entry becomes its fresh snapshot and entries of
unknown keys survive untouched. -/
theorem C10_checkAllTokens_frame (env : Env) (st : ApifyTokenManager) :
    (st.checkAllTokens env).snd = st.tokens.map (getTokenCredits env) ∧
    (st.checkAllTokens env).fst.tokens = st.tokens ∧
    (st.checkAllTokens env).fst.currentToken = st.currentToken ∧
    (st.checkAllTokens env).fst.currentTokenIndex = st.currentTokenIndex ∧
    (st.checkAllTokens env).fst.failedTokens = st.failedTokens ∧
    (st.checkAllTokens env).fst.globalCurrentToken = st.globalCurrentToken ∧
    (∀ t, t ∈ st.tokens →
      lookupCredit (st.checkAllTokens env).fst.tokenCredits t =
        some (getTokenCredits env t)) ∧
    (∀ t, t ∉ st.tokens →
      lookupCredit (st.checkAllTokens env).fst.tokenCredits t =
        lookupCredit st.tokenCredits t) := by
  have hfold :
      (st.tokens.map (getTokenCredits env)).foldl
        (fun m r => setCredit m r.token r) st.tokenCredits =
      st.tokens.foldl
        (fun m tk => setCredit m tk (getTokenCredits env tk))
        st.tokenCredits := by
    rw [List.foldl_map]
    simp only [getTokenCredits_token]
  refine ⟨rfl, rfl, rfl, rfl, rfl, rfl, ?_, ?_⟩
  · intro t ht
    show lookupCredit ((st.tokens.map (getTokenCredits env)).foldl
      (fun m r => setCredit m r.token r) st.tokenCredits) t = _
    rw [hfold]
    exact foldlSetCredit_lookup_mem env st.tokens st.tokenCredits t ht
  · intro t ht
    show lookupCredit ((st.tokens.map (getTokenCredits env)).foldl
      (fun m r => setCredit m r.token r) st.tokenCredits) t = _
    rw [hfold]
    exact foldlSetCredit_lookup_other env st.tokens st.tokenCredits t ht

/-- C10 witness: a bulk check over a pool whose every probe fails still
leaves the selection, index and failed set unchanged. -/
theorem C10_witness :
    (stB.checkAllTokens envDead).snd =
      ["tokA", "tokB"].map (getTokenCredits envDead) ∧
    (stB.checkAllTokens envDead).fst.currentToken = some "tokB" ∧
    (stB.checkAllTokens envDead).fst.currentTokenIndex = 1 ∧
    (stB.checkAllTokens envDead).fst.failedTokens = ["tokA"] ∧
    lookupCredit (stB.checkAllTokens envDead).fst.tokenCredits "tokA" =
      some (getTokenCredits envDead "tokA") := by
  have h := C10_checkAllTokens_frame envDead stB
  exact ⟨h.1, h.2.2.1, h.2.2.2.1, h.2.2.2.2.1,
    h.2.2.2.2.2.2.1 "tokA" (by decide)⟩

/-- C4: when every configured token probes as invalid or below threshold
and no token is currently selected, `selectNextToken` fails with the
`NoCredentialAvailable` error (a thrown error, distinct from the
`isValid = false` snapshots which are returned as data), and the
gateway's `runActorAndGetResults` surfaces exactly this failure without
attempting any remote actor call. -/
theorem C4_pool_exhaustion (genv : GatewayEnv) (threshold : ℚ)
    (st : ApifyTokenManager) (actorId : String)
    (hall : ∀ t, t ∈ st.tokens →
      qualifies threshold (getTokenCredits genv.net t) = false)
    (hcur : st.currentToken = none) :
    (st.selectNextToken genv.net threshold).2.2 =
      Except.error (ApifyError.noCredentialAvailable noTokensMsg) ∧
    (runActorAndGetResults genv threshold st actorId).result =
      Except.error (ApifyError.noCredentialAvailable noTokensMsg) ∧
    (runActorAndGetResults genv threshold st actorId).actorCalls = [] := by
  have hout := selectScanGo_exhaust genv.net threshold st.tokens
    (st.tokens.length - st.currentTokenIndex) st.currentTokenIndex
    st.tokenCredits st.failedTokens
    (fun t htm _ => hall t (List.drop_subset _ _ htm))
  have hsel : (st.selectNextToken genv.net threshold).2.2 =
      Except.error (ApifyError.noCredentialAvailable noTokensMsg) := by
    simp only [ApifyTokenManager.selectNextToken, selectScan]
    rw [hout]
  have hget : st.getCurrentToken genv.net threshold =
      ((st.selectNextToken genv.net threshold).1,
       (st.selectNextToken genv.net threshold).2.1,
       Except.error (ApifyError.noCredentialAvailable noTokensMsg)) := by
    unfold ApifyTokenManager.getCurrentToken
    rw [hcur]
    exact Prod.ext rfl (Prod.ext rfl hsel)
  refine ⟨hsel, ?_, ?_⟩
  · unfold runActorAndGetResults
    rw [hget]
  · unfold runActorAndGetResults
    rw [hget]

/-- C4 witness: with both tokens revoked, selection reports pool
exhaustion and the gateway surfaces it with no actor call attempted. -/
theorem C4_witness :
    (stAB.selectNextToken envDead (MIN_CREDITS_THRESHOLD none)).2.2 =
      Except.error (ApifyError.noCredentialAvailable noTokensMsg) ∧
    (runActorAndGetResults genvDead (MIN_CREDITS_THRESHOLD none) stAB
      "actorX").result =
      Except.error (ApifyError.noCredentialAvailable noTokensMsg) ∧
    (runActorAndGetResults genvDead (MIN_CREDITS_THRESHOLD none) stAB
      "actorX").actorCalls = [] :=
  C4_pool_exhaustion genvDead (MIN_CREDITS_THRESHOLD none) stAB "actorX"
    (fun t _ => by simp [qualifies, getTokenCredits, genvDead, envDead]) rfl

/-- The probe log of `selectNextToken` is the probe log of its scan. -/
lemma selectNextToken_probes (env : Env) (threshold : ℚ)
    (st : ApifyTokenManager) :
    (st.selectNextToken env threshold).2.1 =
      (selectScan env threshold st.tokens st.currentTokenIndex
        st.tokenCredits st.failedTokens).probes := by
  simp only [ApifyTokenManager.selectNextToken]
  cases h : (selectScan env threshold st.tokens st.currentTokenIndex
      st.tokenCredits st.failedTokens).outcome with
  | ok v =>
      obtain ⟨i, tok⟩ := v
      rfl
  | error e => rfl

/-- The result of `selectNextToken` is the adopted token of its scan, or
the scan's terminal error. -/
lemma selectNextToken_result (env : Env) (threshold : ℚ)
    (st : ApifyTokenManager) :
    (st.selectNextToken env threshold).2.2 =
      ((selectScan env threshold st.tokens st.currentTokenIndex
        st.tokenCredits st.failedTokens).outcome).map (fun v => v.snd) := by
  simp only [ApifyTokenManager.selectNextToken]
  cases h : (selectScan env threshold st.tokens st.currentTokenIndex
      st.tokenCredits st.failedTokens).outcome with
  | ok v =>
      obtain ⟨i, tok⟩ := v
      rfl
  | error e => rfl

/-- Under `envRich` every probe returns a valid snapshot with 5.0
remaining. -/
lemma probeRich (t : String) : getTokenCredits envRich t =
    { token := t, includedCredits := 5, usedCredits := 0,
      remainingCredits := 5, isValid := true, error := none } := by
  simp [getTokenCredits, envRich]

/-- Under `envRich` every token qualifies at the fallback threshold. -/
lemma qualRich (t : String) :
    qualifies (MIN_CREDITS_THRESHOLD none) (getTokenCredits envRich t) =
      true := by
  rw [probeRich]
  norm_num [qualifies, MIN_CREDITS_THRESHOLD]

/-- Evaluation of the full scan of `stAB` under `envTwo`: `tokA` probed
and disqualified, `tokB` probed and adopted at index 1. -/
lemma scanAB :
    selectScanGo envTwo (MIN_CREDITS_THRESHOLD none) ["tokA", "tokB"] 2 0
      [] [] =
      ⟨[("tokA", infoA), ("tokB", infoB)], ["tokA"], ["tokA", "tokB"],
        Except.ok (1, "tokB")⟩ := by
  have s1 : selectScanGo envTwo (MIN_CREDITS_THRESHOLD none)
      ["tokA", "tokB"] 1 1 [("tokA", infoA)] ["tokA"] =
      ⟨[("tokA", infoA), ("tokB", infoB)], ["tokA"], ["tokB"],
        Except.ok (1, "tokB")⟩ := by
    rw [selectScanGo]
    simp [probeB, qualB, setCredit]
  rw [selectScanGo]
  simp [probeA, qualA, setCredit, s1]

/-- The state `stAB` reaches after its first selection under `envTwo`. -/
def stAB1 : ApifyTokenManager :=
  { tokens := ["tokA", "tokB"],
    tokenCredits := [("tokA", infoA), ("tokB", infoB)],
    currentToken := some "tokB", currentTokenIndex := 1,
    failedTokens := ["tokA"], globalCurrentToken := some "tokB" }

/-- Evaluation of the first selection of `stAB` under `envTwo`. -/
lemma selAB : stAB.selectNextToken envTwo (MIN_CREDITS_THRESHOLD none) =
    (stAB1, ["tokA", "tokB"], Except.ok "tokB") := by
  simp only [ApifyTokenManager.selectNextToken, selectScan, stAB, stAB1]
  simp [scanAB]

/-- Evaluation of the scan that follows `resetFailedTokens` on `stAB1`:
it starts at index 1 and probes only `tokB`. -/
lemma scanAB2 :
    selectScanGo envTwo (MIN_CREDITS_THRESHOLD none) ["tokA", "tokB"] 1 1
      [("tokA", infoA), ("tokB", infoB)] [] =
      ⟨[("tokA", infoA), ("tokB", infoB)], [], ["tokB"],
        Except.ok (1, "tokB")⟩ := by
  rw [selectScanGo]
  simp [probeB, qualB, setCredit]

/-- Evaluation of the selection on the reset state: `tokA` (index 0,
before the scan start) is never probed. -/
lemma selAB2 : (stAB1.resetFailedTokens).selectNextToken envTwo
    (MIN_CREDITS_THRESHOLD none) =
    ({ stAB1 with failedTokens := [] }, ["tokB"], Except.ok "tokB") := by
  simp only [ApifyTokenManager.resetFailedTokens,
    ApifyTokenManager.selectNextToken, selectScan, stAB1]
  simp [scanAB2]

/-- C2 counterexample: over `[tokA, tokB]` under `envTwo`, the first
selection marks `tokA` failed and adopts `tokB` at index 1; after
`resetFailedTokens()` the next scan starts at index 1 and probes only
`tokB` — the previously failed `tokA` is not re-probed on the next scan
(the scan never wraps below the current index), contradicting the claim
that it is again eligible on the next scan. -/
theorem C2_counterexample :
    "tokA" ∈ (stAB.selectNextToken envTwo
      (MIN_CREDITS_THRESHOLD none)).1.failedTokens ∧
    ((stAB.selectNextToken envTwo
      (MIN_CREDITS_THRESHOLD none)).1.resetFailedTokens.selectNextToken
        envTwo (MIN_CREDITS_THRESHOLD none)).2.1 = ["tokB"] ∧
    "tokA" ∉ ((stAB.selectNextToken envTwo
      (MIN_CREDITS_THRESHOLD none)).1.resetFailedTokens.selectNextToken
        envTwo (MIN_CREDITS_THRESHOLD none)).2.1 := by
  simp only [selAB]
  refine ⟨by simp [stAB1], ?_, ?_⟩
  · show ((stAB1.resetFailedTokens).selectNextToken envTwo
      (MIN_CREDITS_THRESHOLD none)).2.1 = ["tokB"]
    rw [selAB2]
  · show "tokA" ∉ ((stAB1.resetFailedTokens).selectNextToken envTwo
      (MIN_CREDITS_THRESHOLD none)).2.1
    rw [selAB2]
    simp

/-- C2 (amended): a token in the failed set is skipped without probing by
every subsequent scan, and `resetFailedTokens()` empties the failed set —
after it no token is excluded by the failed set; but a previously failed
token is re-probed (and can be re-adopted) by the next scan only if the
scan, which starts at the current index and never wraps, reaches its
position: when its index `j` is at or after the current index and no
candidate strictly before it qualifies, the reset pool re-probes and
adopts it. -/
theorem C2_failed_skip_and_reset (env : Env) (threshold : ℚ)
    (st : ApifyTokenManager) :
    (∀ t, t ∈ st.failedTokens →
      t ∉ (st.selectNextToken env threshold).2.1) ∧
    st.resetFailedTokens.failedTokens = [] ∧
    (∀ j (hj : j < st.tokens.length), st.currentTokenIndex ≤ j →
      qualifies threshold (getTokenCredits env st.tokens[j]) = true →
      (∀ k (hk : k < st.tokens.length), st.currentTokenIndex ≤ k → k < j →
        qualifies threshold (getTokenCredits env st.tokens[k]) = false) →
      (st.resetFailedTokens.selectNextToken env threshold).2.2 =
        Except.ok st.tokens[j] ∧
      st.tokens[j] ∈
        (st.resetFailedTokens.selectNextToken env threshold).2.1) := by
  refine ⟨?_, rfl, ?_⟩
  · intro t ht
    rw [selectNextToken_probes]
    exact selectScanGo_skips_failed env threshold st.tokens _ _ _ _ t ht
  · intro j hj hij hq hmin
    have hff := selectScanGo_first_fit env threshold st.tokens
      (st.tokens.length - st.currentTokenIndex) st.currentTokenIndex
      st.tokenCredits [] j hj (by omega) hij (List.not_mem_nil _) hq
      (fun k hk h1 h2 _ => hmin k hk h1 h2)
    constructor
    · rw [selectNextToken_result]
      simp only [ApifyTokenManager.resetFailedTokens, selectScan]
      rw [hff.1]
      rfl
    · rw [selectNextToken_probes]
      simp only [ApifyTokenManager.resetFailedTokens, selectScan]
      exact hff.2.2 j hj hij (le_refl j) (List.not_mem_nil _)

/-- Pool over the single token `tokA` after an exhausted scan under
`envTwo`: `tokA` is cached as failed, nothing selected, index still 0. -/
def stA1 : ApifyTokenManager :=
  { tokens := ["tokA"], tokenCredits := [("tokA", infoA)],
    currentToken := none, currentTokenIndex := 0,
    failedTokens := ["tokA"], globalCurrentToken := none }

/-- C2 witness: the failed `tokA` is not probed by a new scan; after
`resetFailedTokens()` and a billing refill (`envRich`), the very next
scan re-probes and re-adopts it. -/
theorem C2_witness :
    "tokA" ∉ (stA1.selectNextToken envTwo
      (MIN_CREDITS_THRESHOLD none)).2.1 ∧
    stA1.resetFailedTokens.failedTokens = [] ∧
    (stA1.resetFailedTokens.selectNextToken envRich
      (MIN_CREDITS_THRESHOLD none)).2.2 = Except.ok "tokA" ∧
    "tokA" ∈ (stA1.resetFailedTokens.selectNextToken envRich
      (MIN_CREDITS_THRESHOLD none)).2.1 := by
  have e0 : stA1.tokens[0] = "tokA" := rfl
  have ha := (C2_failed_skip_and_reset envTwo (MIN_CREDITS_THRESHOLD none)
    stA1).1 "tokA" (by decide)
  have hr := (C2_failed_skip_and_reset envRich (MIN_CREDITS_THRESHOLD none)
    stA1).2
  have hc := hr.2 0 (by decide) (by decide)
    (by rw [e0]; exact qualRich "tokA")
    (fun k hk h1 h2 => absurd h2 (by omega))
  rw [e0] at hc
  exact ⟨ha, hr.1, hc.1, hc.2⟩

/-- Evaluation of the post-call check of `stB` under `envTwo`: the
current token still qualifies, yet the state changes — its fresh snapshot
is written into the (previously empty) cache. -/
lemma rotateB : stB.checkAndRotateToken envTwo (MIN_CREDITS_THRESHOLD none) =
    ({ stB with tokenCredits := [("tokB", infoB)] }, ["tokB"]) := by
  simp only [ApifyTokenManager.checkAndRotateToken,
    ApifyTokenManager.checkAndRotateTokenBody, stB]
  simp [probeB, qualB, setCredit]

/-- C3 counterexample: for `stB` (current token `tokB`, empty snapshot
cache) under `envTwo` the re-probe reports `tokB` valid and above
threshold, yet the pool state after `checkAndRotateToken` differs from
the state before it: the fresh snapshot was written into the cache, so
"the pool state is unchanged" fails. -/
theorem C3_counterexample :
    qualifies (MIN_CREDITS_THRESHOLD none) (getTokenCredits envTwo "tokB") =
      true ∧
    (stB.checkAndRotateToken envTwo (MIN_CREDITS_THRESHOLD none)).fst ≠
      stB := by
  refine ⟨by rw [probeB]; exact qualB, ?_⟩
  rw [rotateB]
  intro hc
  have hcreds := congrArg ApifyTokenManager.tokenCredits hc
  simp [stB] at hcreds

/-- C3 (amended): `checkAndRotateToken` re-probes only the current token
and always refreshes its snapshot-cache entry; when the probe still
qualifies, the selection state (`currentToken`, `currentTokenIndex`,
`failedTokens`, `tokens`) and all other cache entries are unchanged;
otherwise the current token is marked failed, the selection cleared, the
index advanced past it and `selectNextToken` invoked, whose state and
probes are taken over while its error — like every error of this check —
is caught, never propagated; with no current token it is a no-op; and the
result the gateway returns to its caller is unaffected by the post-call
check. -/
theorem C3_checkAndRotateToken (env : Env) (threshold : ℚ)
    (st : ApifyTokenManager) :
    (∀ tok, st.currentToken = some tok → tok ≠ "" →
      qualifies threshold (getTokenCredits env tok) = true →
      (st.checkAndRotateToken env threshold).snd = [tok] ∧
      (st.checkAndRotateToken env threshold).fst.currentToken =
        st.currentToken ∧
      (st.checkAndRotateToken env threshold).fst.currentTokenIndex =
        st.currentTokenIndex ∧
      (st.checkAndRotateToken env threshold).fst.failedTokens =
        st.failedTokens ∧
      (st.checkAndRotateToken env threshold).fst.tokens = st.tokens ∧
      lookupCredit (st.checkAndRotateToken env threshold).fst.tokenCredits
        tok = some (getTokenCredits env tok) ∧
      (∀ t, t ≠ tok →
        lookupCredit
          (st.checkAndRotateToken env threshold).fst.tokenCredits t =
          lookupCredit st.tokenCredits t)) ∧
    (∀ tok, st.currentToken = some tok → tok ≠ "" →
      qualifies threshold (getTokenCredits env tok) = false →
      st.checkAndRotateToken env threshold =
        ((({ st with
            tokenCredits := setCredit st.tokenCredits tok
              (getTokenCredits env tok),
            failedTokens := st.failedTokens.insert tok,
            currentTokenIndex := st.currentTokenIndex + 1,
            currentToken := none } : ApifyTokenManager).selectNextToken env
              threshold).1,
         tok :: (({ st with
            tokenCredits := setCredit st.tokenCredits tok
              (getTokenCredits env tok),
            failedTokens := st.failedTokens.insert tok,
            currentTokenIndex := st.currentTokenIndex + 1,
            currentToken := none } : ApifyTokenManager).selectNextToken env
              threshold).2.1)) ∧
    (st.currentToken = none →
      st.checkAndRotateToken env threshold = (st, [])) ∧
    (∀ (genv : GatewayEnv) (actorId : String) (items : List String) tok,
      st.currentToken = some tok → tok ≠ "" →
      genv.actorRun tok actorId = Except.ok items →
      (runActorAndGetResults genv threshold st actorId).result =
        Except.ok items) := by
  refine ⟨?_, ?_, ?_, ?_⟩
  · intro tok htok hne hq
    have hbody : st.checkAndRotateToken env threshold =
        ({ st with
            tokenCredits := setCredit st.tokenCredits tok
              (getTokenCredits env tok) },
          [tok]) := by
      simp only [ApifyTokenManager.checkAndRotateToken,
        ApifyTokenManager.checkAndRotateTokenBody, htok]
      simp [hq, hne]
    rw [hbody]
    refine ⟨rfl, rfl, rfl, rfl, rfl, ?_, ?_⟩
    · exact lookupCredit_setCredit_self st.tokenCredits tok _
    · intro t hts
      exact lookupCredit_setCredit_other st.tokenCredits tok t _ hts
  · intro tok htok hne hq
    simp only [ApifyTokenManager.checkAndRotateToken,
      ApifyTokenManager.checkAndRotateTokenBody, htok]
    simp [hq, hne]
  · intro htok
    simp only [ApifyTokenManager.checkAndRotateToken,
      ApifyTokenManager.checkAndRotateTokenBody, htok]
  · intro genv actorId items tok htok hne hrun
    have hget : st.getCurrentToken genv.net threshold =
        ({ st with globalCurrentToken := some tok }, [], Except.ok tok) := by
      simp only [ApifyTokenManager.getCurrentToken, htok, hne, ite_false]
    simp only [runActorAndGetResults, hget, hrun]

/-- C3 witness: the still-qualifying branch on `stB` under `envTwo`
(probes only `tokB`, selection untouched), and a caller of the gateway
receiving its items untouched by the post-call check. -/
theorem C3_witness :
    (stB.checkAndRotateToken envTwo (MIN_CREDITS_THRESHOLD none)).snd =
      ["tokB"] ∧
    (stB.checkAndRotateToken envTwo
      (MIN_CREDITS_THRESHOLD none)).fst.currentToken = some "tokB" ∧
    (stB.checkAndRotateToken envTwo
      (MIN_CREDITS_THRESHOLD none)).fst.failedTokens = ["tokA"] ∧
    (runActorAndGetResults genvTwo (MIN_CREDITS_THRESHOLD none) stB
      "actorX").result = Except.ok ["item1"] := by
  have h := C3_checkAndRotateToken envTwo (MIN_CREDITS_THRESHOLD none) stB
  have h1 := h.1 "tokB" rfl (by decide) (by rw [probeB]; exact qualB)
  refine ⟨h1.1, ?_, ?_, ?_⟩
  · rw [h1.2.1]
    rfl
  · rw [h1.2.2.2.1]
    rfl
  · exact h.2.2.2 genvTwo "actorX" ["item1"] "tokB" rfl (by decide) rfl

end Subnet111
